import Mathlib

/-!
Verification development for the three-stage Reddit discussion pipeline
(discovery, scraping, classification) and the dashboard aggregation engine.

The definitions below are a shallow embedding of the TypeScript sources:
discovery (snoowrap listing scan), the scraper (comment-tree flattening),
the analysis stage (thread-context builder, candidate filter, batch loop,
JSONL persistence) and the dashboard page (filter cascade, grouped counts,
weighted and unweighted percentages, ignore sets with localStorage).

JavaScript strings are modelled as Lean strings; the few string operations
used by the code (toLowerCase, includes, startsWith on ASCII marker text)
are given structural definitions so that all of them evaluate inside the
kernel. JSONL files are modelled as lists of lines, where each line is
either blank, malformed (JSON.parse throws) or a well-typed record; this
mirrors exactly the three cases the code distinguishes. A JavaScript
division whose denominator is zero yields NaN or Infinity, never 0; such a
non-finite result is modelled as Option.none.
-/

/-- Character-list test that the first list is an initial segment of the
second, mirroring positional string comparison on JavaScript strings. -/
def leadsWith : List Char → List Char → Bool
  | [], _ => true
  | _ :: _, [] => false
  | a :: as, b :: bs => a == b && leadsWith as bs

/-- Substring occurrence test on character lists, mirroring the JavaScript
String.prototype.includes method for the ASCII needles used by the code. -/
def hasSub (needle : List Char) : List Char → Bool
  | [] => leadsWith needle []
  | c :: rest => leadsWith needle (c :: rest) || hasSub needle rest

/-- Lower-casing, mirroring toLowerCase on the ASCII text the keywords use. -/
def lowerStr (s : String) : String := String.mk (s.data.map Char.toLower)

/-- Model of JavaScript hay.includes(needle). -/
def includesSub (hay needle : String) : Bool := hasSub needle.data hay.data

/-- One line of a persisted JSONL file, as seen by the loaders: the code
first drops blank lines and then feeds each remaining line to JSON.parse,
which either throws (malformed) or yields a record. -/
inductive RawLine (α : Type) : Type where
  | blank : RawLine α
  | malformed : RawLine α
  | record : α → RawLine α
deriving DecidableEq

/-- Model of mapping JSON.parse over every non-blank line with no per-line
error handling: the first malformed line throws, aborting the whole load. -/
def parseAllLines {α : Type} : List (RawLine α) → Option (List α)
  | [] => some []
  | RawLine.blank :: rest => parseAllLines rest
  | RawLine.malformed :: _ => none
  | RawLine.record a :: rest => (parseAllLines rest).map (a :: ·)

/-- The nine comparison categories of the sentiment schema. -/
inductive Comparison : Type where
  | codex_better
  | claude_code_better
  | equal
  | neither
  | off_topic
  | claude_code_only_positive
  | claude_code_only_negative
  | codex_only_positive
  | codex_only_negative
deriving DecidableEq

/-- The four sentiment values of the sentiment schema. -/
inductive Sentiment : Type where
  | positive
  | negative
  | neutral
  | na
deriving DecidableEq

/-- SentimentResult record, as produced by analyze.ts and consumed by the
dashboard. The dashboard declares subreddit, score and model optional. -/
structure SentimentResult where
  commentId : String
  postId : String
  subreddit : Option String
  permalink : String
  comparison : Comparison
  claudeCodeSentiment : Sentiment
  codexSentiment : Sentiment
  reasoning : String
  themes : List String
  quoteWorthy : Bool
  quote : Option String
  score : Option Int
  model : Option String
  analyzedAt : Int
deriving DecidableEq

/-- RedditComment record of the scraper output and analysis input. -/
structure RedditComment where
  id : String
  parentId : Option String
  postId : String
  depth : Nat
  text : String
  score : Int
  author : String
  created : Int
deriving DecidableEq

/-- RedditPost record of the scraper output and analysis input. -/
structure RedditPost where
  postId : String
  subreddit : String
  title : String
  selftext : String
  score : Int
  url : String
  permalink : String
  author : String
  created : Int
  numComments : Int
  comments : List RedditComment
deriving DecidableEq

namespace Discovery

/-- One item of a subreddit new-listing page, with the fields discover.ts
reads from the API object. -/
structure ListingPost where
  name : String
  title : String
  selftext : Option String
  permalink : String
  score : Int
  created_utc : Int
deriving DecidableEq

/-- DiscoveredURL record, as persisted to discovered_urls.jsonl. -/
structure DiscoveredURL where
  url : String
  title : String
  snippet : String
  discoveredAt : Int
  query : String
  subreddit : String
  score : Int
  created : Int
deriving DecidableEq

/-- The REQUIRED_KEYWORDS constant of the discovery stage. -/
def REQUIRED_KEYWORDS : List String := ["claude code", "codex"]

/-- Keyword predicate of the discovery stage: every required keyword must
occur in the lower-cased text. -/
def matchesKeywords (text : String) : Bool :=
  let normalized := lowerStr text
  REQUIRED_KEYWORDS.all (fun keyword => includesSub normalized keyword)

/-- Loader of the already-discovered URL set: reads discovered_urls.jsonl,
skipping blank lines and, via try/catch, malformed lines. -/
def loadDiscoveredURLs (file : List (RawLine DiscoveredURL)) : List String :=
  match file with
  | [] => []
  | RawLine.blank :: rest => loadDiscoveredURLs rest
  | RawLine.malformed :: rest => loadDiscoveredURLs rest
  | RawLine.record r :: rest => r.url :: loadDiscoveredURLs rest

/-- Dedup key built for each listing item. -/
def permalinkURL (p : ListingPost) : String := "https://reddit.com" ++ p.permalink

/-- Text the keyword predicate is applied to: title plus selftext. -/
def searchText (p : ListingPost) : String := p.title ++ " " ++ p.selftext.getD ""

/-- DiscoveredURL record constructed for a matching listing item. -/
def mkDiscoveredURL (subredditName : String) (now : Int) (p : ListingPost) : DiscoveredURL :=
  { url := permalinkURL p
    title := p.title
    snippet := (p.selftext.getD "").take 200
    discoveredAt := now
    query := "reddit_api"
    subreddit := subredditName
    score := p.score
    created := p.created_utc }

/-- Inner loop over the items of one listing page: stop at the first item
older than the cutoff, skip items whose permalink is already in the set,
skip items failing the keyword predicate, and append every match to the
set and the output immediately. Returns the appended records, the updated
set, and whether the time cutoff was reached. -/
def processPosts (cutoffTimestamp : Int) (subredditName : String) (now : Int) :
    List ListingPost → List String → List DiscoveredURL × List String × Bool
  | [], existing => ([], existing, false)
  | p :: rest, existing =>
    if p.created_utc < cutoffTimestamp then ([], existing, true)
    else if existing.contains (permalinkURL p) then
      processPosts cutoffTimestamp subredditName now rest existing
    else if !matchesKeywords (searchText p) then
      processPosts cutoffTimestamp subredditName now rest existing
    else
      let r := mkDiscoveredURL subredditName now p
      let out := processPosts cutoffTimestamp subredditName now rest
        (existing ++ [permalinkURL p])
      (r :: out.1, out.2.1, out.2.2)

/-- Pagination loop of discoverFromSubreddit: the source is modelled as the
sequence of pages the listing API returns; the loop stops on an empty page
or once the time cutoff is reached. -/
def processPages (cutoffTimestamp : Int) (subredditName : String) (now : Int) :
    List (List ListingPost) → List String → List DiscoveredURL
  | [], _ => []
  | page :: rest, existing =>
    if page.isEmpty then []
    else
      let out := processPosts cutoffTimestamp subredditName now page existing
      if out.2.2 then out.1
      else out.1 ++ processPages cutoffTimestamp subredditName now rest out.2.1

/-- Discovery of one subreddit: load the existing URL set from the store,
then scan the pages. Returns the newly appended records. -/
def discoverFromSubreddit (cutoffTimestamp : Int) (now : Int) (subredditName : String)
    (pages : List (List ListingPost)) (store : List (RawLine DiscoveredURL)) :
    List DiscoveredURL :=
  processPages cutoffTimestamp subredditName now pages (loadDiscoveredURLs store)

/-- One full discovery run: iterate the configured subreddits in order,
each one reloading the store (which includes records appended by earlier
subreddits in the same run) and appending its matches. -/
def runDiscovery (cutoffTimestamp : Int) (now : Int) :
    List (String × List (List ListingPost)) → List (RawLine DiscoveredURL) →
    List (RawLine DiscoveredURL)
  | [], store => store
  | (subredditName, pages) :: rest, store =>
    runDiscovery cutoffTimestamp now rest
      (store ++ (discoverFromSubreddit cutoffTimestamp now subredditName pages store).map
        RawLine.record)

end Discovery

namespace Scrape

mutual
/-- Raw comment of the thread-detail API, before flattening: the scraper
reads id, body, parent_id, score, author, created_utc and the nested
replies. -/
inductive RawComment : Type where
  | mk (id : String) (body : String) (parent_id : Option String) (score : Int)
      (author : String) (created : Int) (replies : RawCommentList)
/-- List of raw comments, kept as a mutual inductive so that the flattening
recursion is structural. -/
inductive RawCommentList : Type where
  | nil : RawCommentList
  | cons (head : RawComment) (tail : RawCommentList) : RawCommentList
end

/-- Resolution of the raw parent_id field: a t1_ reference to a comment
yields that comment id, a t3_ reference to the post (or anything else)
yields null. Mirrors the regex match plus the startsWith t1_ check. -/
def parseParentId (pid : Option String) : Option String :=
  match pid with
  | none => none
  | some s =>
    match s.data with
    | 't' :: '1' :: '_' :: c :: cs => some (String.mk (c :: cs))
    | _ => none

mutual
/-- Flattening of one raw comment: a deleted or removed body discards the
comment together with its whole subtree; otherwise the comment is emitted
at the current depth followed by its replies at depth + 1. -/
def extractOne (postId : String) (depth : Nat) : RawComment → List RedditComment
  | RawComment.mk id body parent_id score author created replies =>
    if body = "" || body = "[deleted]" || body = "[removed]" then []
    else
      { id := id, parentId := parseParentId parent_id, postId := postId, depth := depth,
        text := body, score := score, author := author, created := created }
        :: extractList postId (depth + 1) replies
/-- Flattening of a sibling list in order, pre-order traversal. -/
def extractList (postId : String) (depth : Nat) : RawCommentList → List RedditComment
  | RawCommentList.nil => []
  | RawCommentList.cons c rest => extractOne postId depth c ++ extractList postId depth rest
end

/-- The extractComments call of the scraper: flatten the whole tree
starting at depth 0. -/
def extractComments (postId : String) (tree : RawCommentList) : List RedditComment :=
  extractList postId 0 tree

mutual
/-- Well-formedness of a raw comment relative to the parent reference its
position in the tree dictates: its parent_id resolves to the expected
value and each of its replies carries a t1_ reference back to it. -/
def rawWF (expected : Option String) : RawComment → Bool
  | RawComment.mk id _ parent_id _ _ _ replies =>
    (parseParentId parent_id == expected) && rawListWF (some id) replies
/-- Well-formedness of a sibling list: every member is well-formed with the
same expected parent reference. -/
def rawListWF (expected : Option String) : RawCommentList → Bool
  | RawCommentList.nil => true
  | RawCommentList.cons c rest => rawWF expected c && rawListWF expected rest
end

/-- Loader of discovered_urls.jsonl in the scraper: JSON.parse is mapped
over every non-blank line with no per-line error handling. -/
def loadDiscoveredURLs (file : List (RawLine Discovery.DiscoveredURL)) :
    Option (List Discovery.DiscoveredURL) :=
  parseAllLines file

/-- Loader of the already-scraped post id set from reddit_data.jsonl,
skipping blank lines and, via try/catch, malformed lines. -/
def loadScrapedPostIds (file : List (RawLine RedditPost)) : List String :=
  match file with
  | [] => []
  | RawLine.blank :: rest => loadScrapedPostIds rest
  | RawLine.malformed :: rest => loadScrapedPostIds rest
  | RawLine.record r :: rest => r.postId :: loadScrapedPostIds rest

end Scrape

namespace Analyze

/-- ThreadContext record returned by getThreadContext. -/
structure ThreadContext where
  postTitle : String
  postBody : String
  commentChain : List RedditComment
  fullText : String
deriving DecidableEq

/-- One step of the parent-chain walk of getThreadContext: a null parentId
ends the walk, and so does a parent id with no matching comment; otherwise
the walk continues from the first comment carrying the parent id. -/
def parentStep (allComments : List RedditComment) (c : RedditComment) :
    Option RedditComment :=
  match c.parentId with
  | none => none
  | some pid => allComments.find? (fun x => x.id == pid)

/-- Upward walk of the parent chain, fuel-indexed: the JavaScript while
loop prepends the current comment and continues from the parent while the
step finds one. The fuel argument makes the possibly non-terminating loop
total; the termination theorem shows the result is stable once the fuel
exceeds the chain. -/
def chainAux (allComments : List RedditComment) : Nat → RedditComment → List RedditComment
  | 0, _ => []
  | fuel + 1, current =>
    match parentStep allComments current with
    | none => [current]
    | some parent => chainAux allComments fuel parent ++ [current]

/-- Rendering of one chain entry inside the full-text blob. -/
def renderChainComment (i : Nat) (c : RedditComment) : String :=
  "COMMENT " ++ toString (i + 1) ++ " (depth " ++ toString c.depth ++ ", score "
    ++ toString c.score ++ "): " ++ c.text

/-- Thread-context builder: walk the parent chain upward from the target
comment, then render post title, post body when non-empty, and the chain
entries in root-to-target order, joined by blank lines with empty pieces
filtered out. The fuel bound length + 1 covers every terminating walk. -/
def getThreadContext (comment : RedditComment) (allComments : List RedditComment)
    (post : RedditPost) : ThreadContext :=
  let chain := chainAux allComments (allComments.length + 1) comment
  let pieces := ("POST TITLE: " ++ post.title)
    :: (if post.selftext ≠ "" then "POST BODY: " ++ post.selftext else "")
    :: chain.enum.map (fun ic => renderChainComment ic.1 ic.2)
  { postTitle := post.title
    postBody := post.selftext
    commentChain := chain
    fullText := String.intercalate "\n\n" (pieces.filter (fun s => s ≠ "")) }

/-- Eligibility predicate of the analysis stage: the lower-cased context
must mention Claude Code (with a space or a hyphen) and Codex. -/
def mentionsBothTools (text : String) : Bool :=
  let lower := lowerStr text
  (includesSub lower "claude code" || includesSub lower "claude-code")
    && includesSub lower "codex"

/-- Loader of already analyzed comment ids from sentiment_analysis.jsonl,
skipping blank lines and, via try/catch, malformed lines. -/
def loadAnalyzedComments (file : List (RawLine SentimentResult)) : List String :=
  match file with
  | [] => []
  | RawLine.blank :: rest => loadAnalyzedComments rest
  | RawLine.malformed :: rest => loadAnalyzedComments rest
  | RawLine.record r :: rest => r.commentId :: loadAnalyzedComments rest

/-- Loader of the input thread file reddit_data_clean.jsonl: JSON.parse is
mapped over every non-blank line with no per-line error handling. -/
def loadPosts (file : List (RawLine RedditPost)) : Option (List RedditPost) :=
  parseAllLines file

/-- Fields parsed out of one classifier response. -/
structure AnalysisOut where
  comparison : Comparison
  claudeCodeSentiment : Sentiment
  codexSentiment : Sentiment
  reasoning : String
  themes : List String
  quoteWorthy : Bool
  quote : Option String
deriving DecidableEq

/-- SentimentResult record assembled by analyzeSentiment from the comment,
the post and the parsed classifier response. -/
def mkSentimentResult (mdl : String) (now : Int) (comment : RedditComment)
    (post : RedditPost) (analysis : AnalysisOut) : SentimentResult :=
  { commentId := comment.id
    postId := post.postId
    subreddit := some post.subreddit
    permalink := post.permalink ++ comment.id
    comparison := analysis.comparison
    claudeCodeSentiment := analysis.claudeCodeSentiment
    codexSentiment := analysis.codexSentiment
    reasoning := analysis.reasoning
    themes := analysis.themes
    quoteWorthy := analysis.quoteWorthy
    quote := analysis.quote
    score := some comment.score
    model := some mdl
    analyzedAt := now }

/-- Candidate enumeration of the analysis stage: every comment of every
post, skipping already analyzed ids, kept when its thread context mentions
both tools, in encounter order. -/
def candidateList (posts : List RedditPost) (analyzedIds : List String) :
    List (RedditComment × RedditPost) :=
  posts.flatMap (fun post =>
    (post.comments.filter (fun comment =>
      !analyzedIds.contains comment.id
        && mentionsBothTools (getThreadContext comment post.comments post).fullText)).map
      (fun comment => (comment, post)))

/-- One analysis run: load the analyzed id set, take the first batchSize
candidates, classify each sequentially and append each success to the
store immediately; a per-candidate failure (classifier returns none) is
counted and skipped. -/
def runAnalyze (oracle : RedditComment → RedditPost → Option AnalysisOut) (mdl : String)
    (now : Int) (batchSize : Nat) (posts : List RedditPost)
    (store : List (RawLine SentimentResult)) : List (RawLine SentimentResult) :=
  let analyzedIds := loadAnalyzedComments store
  let batch := (candidateList posts analyzedIds).take batchSize
  store ++ batch.filterMap (fun cp =>
    (oracle cp.1 cp.2).map (fun analysis =>
      RawLine.record (mkSentimentResult mdl now cp.1 cp.2 analysis)))

/-- Sequential history of analysis runs, each with its own input posts and
configured batch size, all appending to the same store. -/
def runHistory (oracle : RedditComment → RedditPost → Option AnalysisOut) (mdl : String)
    (now : Int) : List (List RedditPost × Nat) → List (RawLine SentimentResult) →
    List (RawLine SentimentResult)
  | [], store => store
  | (posts, batchSize) :: rest, store =>
    runHistory oracle mdl now rest (runAnalyze oracle mdl now batchSize posts store)

/-- Iterated parent steps: none means the walk has ended within n steps. -/
def parentIter (allComments : List RedditComment) : Nat → RedditComment →
    Option RedditComment
  | 0, c => some c
  | n + 1, c =>
    match parentStep allComments c with
    | none => none
    | some p => parentIter allComments n p

end Analyze

namespace Dashboard

/-- Filter state of the dashboard relevant to the aggregate statistics:
the ignore sets and toggle, the subreddit filter and the theme filter.
The string all selects everything, as in the page state. -/
structure FilterState where
  showIgnored : Bool
  ignoredComments : List String
  ignoredThreads : List String
  subredditFilter : String
  themeFilter : String
deriving DecidableEq

/-- Active data: all results minus ignored comments and ignored threads,
unless ignored entries are shown. -/
def activeData (data : List SentimentResult) (ignoredComments ignoredThreads : List String)
    (showIgnored : Bool) : List SentimentResult :=
  if showIgnored then data
  else data.filter (fun d =>
    !ignoredComments.contains d.commentId && !ignoredThreads.contains d.postId)

/-- Subreddit filter applied to the active data. -/
def subredditFilteredData (fs : FilterState) (data : List SentimentResult) :
    List SentimentResult :=
  let act := activeData data fs.ignoredComments fs.ignoredThreads fs.showIgnored
  if fs.subredditFilter = "all" then act
  else act.filter (fun d => d.subreddit == some fs.subredditFilter)

/-- Theme filter applied to the subreddit-filtered data; the statistics are
computed from this set. -/
def themeFilteredData (fs : FilterState) (data : List SentimentResult) :
    List SentimentResult :=
  let sub := subredditFilteredData fs data
  if fs.themeFilter = "all" then sub
  else sub.filter (fun d => d.themes.contains fs.themeFilter)

/-- Total count of the theme-filtered data. -/
def total (fs : FilterState) (data : List SentimentResult) : Nat :=
  (themeFilteredData fs data).length

/-- Count of one comparison category in the theme-filtered data. -/
def comparisonCount (fs : FilterState) (data : List SentimentResult) (cmp : Comparison) :
    Nat :=
  ((themeFilteredData fs data).filter (fun d => d.comparison == cmp)).length

/-- Count named claudeCodeBetter in the page. -/
def claudeCodeBetter (fs : FilterState) (data : List SentimentResult) : Nat :=
  comparisonCount fs data Comparison.claude_code_better

/-- Count named codexBetter in the page. -/
def codexBetter (fs : FilterState) (data : List SentimentResult) : Nat :=
  comparisonCount fs data Comparison.codex_better

/-- Count named equal in the page. -/
def equal (fs : FilterState) (data : List SentimentResult) : Nat :=
  comparisonCount fs data Comparison.equal

/-- Count named claudeCodeOnlyPositive in the page. -/
def claudeCodeOnlyPositive (fs : FilterState) (data : List SentimentResult) : Nat :=
  comparisonCount fs data Comparison.claude_code_only_positive

/-- Count named claudeCodeOnlyNegative in the page. -/
def claudeCodeOnlyNegative (fs : FilterState) (data : List SentimentResult) : Nat :=
  comparisonCount fs data Comparison.claude_code_only_negative

/-- Count named codexOnlyPositive in the page. -/
def codexOnlyPositive (fs : FilterState) (data : List SentimentResult) : Nat :=
  comparisonCount fs data Comparison.codex_only_positive

/-- Count named codexOnlyNegative in the page. -/
def codexOnlyNegative (fs : FilterState) (data : List SentimentResult) : Nat :=
  comparisonCount fs data Comparison.codex_only_negative

/-- Count named neither in the page. -/
def neither (fs : FilterState) (data : List SentimentResult) : Nat :=
  comparisonCount fs data Comparison.neither

/-- Count named offTopic in the page. -/
def offTopic (fs : FilterState) (data : List SentimentResult) : Nat :=
  comparisonCount fs data Comparison.off_topic

/-- Grouped count preferClaudeCode. -/
def preferClaudeCode (fs : FilterState) (data : List SentimentResult) : Nat :=
  claudeCodeBetter fs data + claudeCodeOnlyPositive fs data + claudeCodeOnlyNegative fs data

/-- Grouped count preferCodex. -/
def preferCodex (fs : FilterState) (data : List SentimentResult) : Nat :=
  codexBetter fs data + codexOnlyPositive fs data + codexOnlyNegative fs data

/-- Grouped count neutral. -/
def neutral (fs : FilterState) (data : List SentimentResult) : Nat :=
  equal fs data

/-- Grouped count unclear. -/
def unclear (fs : FilterState) (data : List SentimentResult) : Nat :=
  neither fs data + offTopic fs data

/-- Denominator of the clear-preference view. -/
def totalLabeled (fs : FilterState) (data : List SentimentResult) : Nat :=
  preferClaudeCode fs data + preferCodex fs data

/-- Unweighted clear-preference percentage for Claude Code, guarded to 0
when no comment expresses a clear preference. -/
def claudeCodePctLabeled (fs : FilterState) (data : List SentimentResult) : ℚ :=
  if totalLabeled fs data > 0 then
    ((preferClaudeCode fs data : ℚ) / (totalLabeled fs data : ℚ)) * 100
  else 0

/-- Unweighted clear-preference percentage for Codex, same guard. -/
def codexPctLabeled (fs : FilterState) (data : List SentimentResult) : ℚ :=
  if totalLabeled fs data > 0 then
    ((preferCodex fs data : ℚ) / (totalLabeled fs data : ℚ)) * 100
  else 0

/-- The JavaScript expression d.score or 0 used by every upvote sum. -/
def scoreOrZero (d : SentimentResult) : Int := d.score.getD 0

/-- Upvote sum of one comparison category over the theme-filtered data. -/
def comparisonUpvotes (fs : FilterState) (data : List SentimentResult) (cmp : Comparison) :
    Int :=
  ((themeFilteredData fs data).filter (fun d => d.comparison == cmp)).foldl
    (fun sum d => sum + scoreOrZero d) 0

/-- Grouped upvote sum claudeCodeUpvotes. -/
def claudeCodeUpvotes (fs : FilterState) (data : List SentimentResult) : Int :=
  comparisonUpvotes fs data Comparison.claude_code_better
    + comparisonUpvotes fs data Comparison.claude_code_only_positive
    + comparisonUpvotes fs data Comparison.claude_code_only_negative

/-- Grouped upvote sum codexUpvotes. -/
def codexUpvotes (fs : FilterState) (data : List SentimentResult) : Int :=
  comparisonUpvotes fs data Comparison.codex_better
    + comparisonUpvotes fs data Comparison.codex_only_positive
    + comparisonUpvotes fs data Comparison.codex_only_negative

/-- JavaScript division: a zero denominator yields NaN or Infinity, both
non-finite, modelled as none. -/
def jsDiv (a b : ℚ) : Option ℚ := if b = 0 then none else some (a / b)

/-- Upvote-weighted clear-preference percentage for Claude Code as the
page computes it, with no guard on the denominator. -/
def claudeCodeWeightedPctLabeled (fs : FilterState) (data : List SentimentResult) :
    Option ℚ :=
  (jsDiv (claudeCodeUpvotes fs data : ℚ)
    ((claudeCodeUpvotes fs data : ℚ) + (codexUpvotes fs data : ℚ))).map (fun q => q * 100)

/-- Upvote-weighted clear-preference percentage for Codex, same shape. -/
def codexWeightedPctLabeled (fs : FilterState) (data : List SentimentResult) : Option ℚ :=
  (jsDiv (codexUpvotes fs data : ℚ)
    ((claudeCodeUpvotes fs data : ℚ) + (codexUpvotes fs data : ℚ))).map (fun q => q * 100)

/-- The two localStorage keys the dashboard writes. -/
structure Storage where
  ignoredCommentsKey : Option (List String)
  ignoredThreadsKey : Option (List String)
deriving DecidableEq

/-- Client state of the dashboard: the loaded result set, the two ignore
sets, the show-ignored toggle and the backing localStorage. -/
structure DashState where
  data : List SentimentResult
  ignoredComments : List String
  ignoredThreads : List String
  showIgnored : Bool
  storage : Storage
deriving DecidableEq

/-- Toggle of one element in a JavaScript Set kept in insertion order. -/
def jsSetToggle (x : String) (l : List String) : List String :=
  if l.contains x then l.erase x else l ++ [x]

/-- Persistence effect for the ignored comments key: the set is written to
localStorage only when it is non-empty. -/
def persistIgnoredComments (st : DashState) : DashState :=
  if st.ignoredComments.length > 0 then
    { st with storage := { st.storage with ignoredCommentsKey := some st.ignoredComments } }
  else st

/-- Persistence effect for the ignored threads key, same guard. -/
def persistIgnoredThreads (st : DashState) : DashState :=
  if st.ignoredThreads.length > 0 then
    { st with storage := { st.storage with ignoredThreadsKey := some st.ignoredThreads } }
  else st

/-- Toggle of one comment id in the ignore set followed by the persistence
effect the state change triggers. -/
def toggleIgnored (commentId : String) (st : DashState) : DashState :=
  persistIgnoredComments
    { st with ignoredComments := jsSetToggle commentId st.ignoredComments }

/-- Toggle of one thread id in the ignore set followed by the persistence
effect the state change triggers. -/
def toggleThreadIgnored (postId : String) (st : DashState) : DashState :=
  persistIgnoredThreads
    { st with ignoredThreads := jsSetToggle postId st.ignoredThreads }

/-- Readback of the ignored comments key on the next session. -/
def loadIgnoredComments (s : Storage) : List String := s.ignoredCommentsKey.getD []

/-- Readback of the ignored threads key on the next session. -/
def loadIgnoredThreads (s : Storage) : List String := s.ignoredThreadsKey.getD []

/-- Active data of a dashboard state. -/
def activeDataOf (st : DashState) : List SentimentResult :=
  activeData st.data st.ignoredComments st.ignoredThreads st.showIgnored

end Dashboard

/-! Concrete data used by witnesses and counterexamples. -/

/-- Filter state with every filter at its default and ignored entries shown. -/
def exFilterAll : Dashboard.FilterState :=
  { showIgnored := true, ignoredComments := [], ignoredThreads := [],
    subredditFilter := "all", themeFilter := "all" }

/-- One result rated equal, carrying upvotes but no clear preference. -/
def exResultEqual : SentimentResult :=
  { commentId := "c1", postId := "p1", subreddit := some "codex", permalink := "x",
    comparison := Comparison.equal, claudeCodeSentiment := Sentiment.na,
    codexSentiment := Sentiment.na, reasoning := "", themes := [], quoteWorthy := false,
    quote := none, score := some 7, model := none, analyzedAt := 0 }

/-- One result preferring Claude Code, in thread pA. -/
def exResultA : SentimentResult :=
  { commentId := "cA", postId := "pA", subreddit := some "codex", permalink := "x",
    comparison := Comparison.claude_code_better, claudeCodeSentiment := Sentiment.positive,
    codexSentiment := Sentiment.negative, reasoning := "", themes := [], quoteWorthy := true,
    quote := none, score := some 3, model := none, analyzedAt := 0 }

/-- One result preferring Codex, in thread pB. -/
def exResultB : SentimentResult :=
  { commentId := "cB", postId := "pB", subreddit := some "codex", permalink := "x",
    comparison := Comparison.codex_better, claudeCodeSentiment := Sentiment.negative,
    codexSentiment := Sentiment.positive, reasoning := "", themes := [], quoteWorthy := true,
    quote := none, score := some 5, model := none, analyzedAt := 1 }

/-- Storage already holding one ignored comment id. -/
def exStorageA : Dashboard.Storage :=
  { ignoredCommentsKey := some ["a"], ignoredThreadsKey := none }

/-- Dashboard state whose only ignored comment is the stored one. -/
def exDashA : Dashboard.DashState :=
  { data := [], ignoredComments := ["a"], ignoredThreads := [], showIgnored := false,
    storage := exStorageA }

/-- Dashboard state with two loaded results and nothing ignored. -/
def exDash9 : Dashboard.DashState :=
  { data := [exResultA, exResultB], ignoredComments := [], ignoredThreads := [],
    showIgnored := false,
    storage := { ignoredCommentsKey := none, ignoredThreadsKey := none } }

/-- Fixed classifier response parse used by the run models. -/
def exAnalysisOut : Analyze.AnalysisOut :=
  { comparison := Comparison.claude_code_better, claudeCodeSentiment := Sentiment.positive,
    codexSentiment := Sentiment.negative, reasoning := "r", themes := ["speed"],
    quoteWorthy := false, quote := none }

/-- Classifier oracle that always succeeds with the fixed response. -/
def exOracle : RedditComment → RedditPost → Option Analyze.AnalysisOut :=
  fun _ _ => some exAnalysisOut

/-- Top-level comment with id dup mentioning both tools, under post pd1. -/
def exDupCommentA : RedditComment :=
  { id := "dup", parentId := none, postId := "pd1", depth := 0,
    text := "claude code vs codex", score := 1, author := "u", created := 0 }

/-- Top-level comment with the same id dup, under post pd2. -/
def exDupCommentB : RedditComment :=
  { id := "dup", parentId := none, postId := "pd2", depth := 0,
    text := "claude code vs codex", score := 2, author := "v", created := 0 }

/-- First post of the duplicate-id input. -/
def exPostDupA : RedditPost :=
  { postId := "pd1", subreddit := "codex", title := "t", selftext := "", score := 1,
    url := "", permalink := "/r/a/", author := "u", created := 0, numComments := 1,
    comments := [exDupCommentA] }

/-- Second post of the duplicate-id input, in a different thread. -/
def exPostDupB : RedditPost :=
  { postId := "pd2", subreddit := "codex", title := "t", selftext := "", score := 1,
    url := "", permalink := "/r/b/", author := "v", created := 0, numComments := 1,
    comments := [exDupCommentB] }

/-- Post whose comment ids are globally unique. -/
def exPostUnique : RedditPost :=
  { postId := "pu", subreddit := "codex", title := "t", selftext := "", score := 1,
    url := "", permalink := "/r/u/", author := "u", created := 0, numComments := 2,
    comments :=
      [ { id := "u1", parentId := none, postId := "pu", depth := 0,
          text := "claude code vs codex", score := 1, author := "u", created := 0 },
        { id := "u2", parentId := none, postId := "pu", depth := 0,
          text := "nothing here", score := 1, author := "u", created := 0 } ] }

/-- Comment whose text writes claude-code with a hyphen and mentions codex. -/
def cexHyphenComment : RedditComment :=
  { id := "hx", parentId := none, postId := "ph", depth := 0,
    text := "claude-code vs codex", score := 1, author := "u", created := 0 }

/-- Post holding the hyphen comment; title and body add no keywords. -/
def cexHyphenPost : RedditPost :=
  { postId := "ph", subreddit := "codex", title := "hello", selftext := "", score := 1,
    url := "", permalink := "/r/h/", author := "u", created := 0, numComments := 1,
    comments := [cexHyphenComment] }

/-- Comment that never mentions codex. -/
def cexNoCodexComment : RedditComment :=
  { id := "nc", parentId := none, postId := "pn", depth := 0,
    text := "i love claude code", score := 1, author := "u", created := 0 }

/-- Post holding the codex-free comment. -/
def cexNoCodexPost : RedditPost :=
  { postId := "pn", subreddit := "ClaudeCode", title := "hello", selftext := "", score := 1,
    url := "", permalink := "/r/n/", author := "u", created := 0, numComments := 1,
    comments := [cexNoCodexComment] }

/-- Well-formed two-level raw comment tree: reply b nested under comment a. -/
def exRawTree : Scrape.RawCommentList :=
  Scrape.RawCommentList.cons
    (Scrape.RawComment.mk "a" "hi" (some "t3_p") 3 "u1" 10
      (Scrape.RawCommentList.cons
        (Scrape.RawComment.mk "b" "yo" (some "t1_a") 2 "u2" 11 Scrape.RawCommentList.nil)
        Scrape.RawCommentList.nil))
    Scrape.RawCommentList.nil

/-- The depth-one flattened comment of the example tree. -/
def exDeepComment : RedditComment :=
  { id := "b", parentId := some "a", postId := "p", depth := 1, text := "yo", score := 2,
    author := "u2", created := 11 }

/-- Post record wrapping the example tree for the context builder. -/
def exTreePost : RedditPost :=
  { postId := "p", subreddit := "codex", title := "t", selftext := "", score := 3,
    url := "", permalink := "/r/p/", author := "u1", created := 10, numComments := 2,
    comments := Scrape.extractComments "p" exRawTree }

/-- Top-level comment used by the termination witness. -/
def exRootComment : RedditComment :=
  { id := "r", parentId := none, postId := "p", depth := 0, text := "hi", score := 0,
    author := "u", created := 0 }

/-- One listing item matching the discovery keywords inside the window. -/
def exListingPost : Discovery.ListingPost :=
  { name := "t3_l1", title := "claude code vs codex thoughts", selftext := some "body",
    permalink := "/r/codex/comments/l1/", score := 4, created_utc := 100 }

/-! Helper lemmas shared by the claim theorems. -/

theorem contains_eq_true_iff_mem (l : List String) (a : String) :
    l.contains a = true ↔ a ∈ l := by
  induction l with
  | nil => simp
  | cons b bs ih => simp [List.contains_cons, ih, beq_iff_eq, List.mem_cons]

theorem not_mem_of_contains_eq_false {l : List String} {a : String}
    (h : l.contains a = false) : a ∉ l := by
  intro hm
  rw [(contains_eq_true_iff_mem l a).mpr hm] at h
  simp at h

theorem contains_append (l₁ l₂ : List String) (a : String) :
    (l₁ ++ l₂).contains a = (l₁.contains a || l₂.contains a) := by
  induction l₁ with
  | nil => simp [List.contains_cons]
  | cons b bs ih => simp [List.contains_cons, ih, Bool.or_assoc]

theorem comparison_filter_partition (l : List SentimentResult) :
    (l.filter (fun d => d.comparison == Comparison.claude_code_better)).length
      + (l.filter (fun d => d.comparison == Comparison.claude_code_only_positive)).length
      + (l.filter (fun d => d.comparison == Comparison.claude_code_only_negative)).length
      + ((l.filter (fun d => d.comparison == Comparison.codex_better)).length
      + (l.filter (fun d => d.comparison == Comparison.codex_only_positive)).length
      + (l.filter (fun d => d.comparison == Comparison.codex_only_negative)).length)
      + (l.filter (fun d => d.comparison == Comparison.equal)).length
      + ((l.filter (fun d => d.comparison == Comparison.neither)).length
      + (l.filter (fun d => d.comparison == Comparison.off_topic)).length)
      = l.length := by
  induction l with
  | nil => rfl
  | cons d t ih =>
    cases h : d.comparison <;> simp [List.filter_cons, h] <;> omega

theorem loadAnalyzedComments_append (a b : List (RawLine SentimentResult)) :
    Analyze.loadAnalyzedComments (a ++ b)
      = Analyze.loadAnalyzedComments a ++ Analyze.loadAnalyzedComments b := by
  induction a with
  | nil => rfl
  | cons x rest ih => cases x <;> simp [Analyze.loadAnalyzedComments, ih]

theorem loadAnalyzedComments_map_record (l : List SentimentResult) :
    Analyze.loadAnalyzedComments (l.map RawLine.record) = l.map (fun r => r.commentId) := by
  induction l with
  | nil => rfl
  | cons x rest ih => simp [Analyze.loadAnalyzedComments, ih]

theorem loadDiscoveredURLs_append (a b : List (RawLine Discovery.DiscoveredURL)) :
    Discovery.loadDiscoveredURLs (a ++ b)
      = Discovery.loadDiscoveredURLs a ++ Discovery.loadDiscoveredURLs b := by
  induction a with
  | nil => rfl
  | cons x rest ih => cases x <;> simp [Discovery.loadDiscoveredURLs, ih]

theorem loadDiscoveredURLs_map_record (l : List Discovery.DiscoveredURL) :
    Discovery.loadDiscoveredURLs (l.map RawLine.record) = l.map (fun r => r.url) := by
  induction l with
  | nil => rfl
  | cons x rest ih => simp [Discovery.loadDiscoveredURLs, ih]

theorem parseAllLines_with_malformed {α : Type} (pre post : List (RawLine α)) :
    parseAllLines (pre ++ RawLine.malformed :: post) = none := by
  induction pre with
  | nil => rfl
  | cons x rest ih => cases x <;> simp [parseAllLines, ih]

theorem persistIgnoredComments_data (s : Dashboard.DashState) :
    (Dashboard.persistIgnoredComments s).data = s.data := by
  unfold Dashboard.persistIgnoredComments
  split <;> rfl

theorem persistIgnoredComments_ignoredComments (s : Dashboard.DashState) :
    (Dashboard.persistIgnoredComments s).ignoredComments = s.ignoredComments := by
  unfold Dashboard.persistIgnoredComments
  split <;> rfl

theorem persistIgnoredComments_threadsKey (s : Dashboard.DashState) :
    (Dashboard.persistIgnoredComments s).storage.ignoredThreadsKey
      = s.storage.ignoredThreadsKey := by
  unfold Dashboard.persistIgnoredComments
  split <;> rfl

theorem persistIgnoredThreads_data (s : Dashboard.DashState) :
    (Dashboard.persistIgnoredThreads s).data = s.data := by
  unfold Dashboard.persistIgnoredThreads
  split <;> rfl

theorem persistIgnoredThreads_ignoredComments (s : Dashboard.DashState) :
    (Dashboard.persistIgnoredThreads s).ignoredComments = s.ignoredComments := by
  unfold Dashboard.persistIgnoredThreads
  split <;> rfl

theorem persistIgnoredThreads_ignoredThreads (s : Dashboard.DashState) :
    (Dashboard.persistIgnoredThreads s).ignoredThreads = s.ignoredThreads := by
  unfold Dashboard.persistIgnoredThreads
  split <;> rfl

theorem persistIgnoredThreads_showIgnored (s : Dashboard.DashState) :
    (Dashboard.persistIgnoredThreads s).showIgnored = s.showIgnored := by
  unfold Dashboard.persistIgnoredThreads
  split <;> rfl

theorem persistIgnoredThreads_commentsKey (s : Dashboard.DashState) :
    (Dashboard.persistIgnoredThreads s).storage.ignoredCommentsKey
      = s.storage.ignoredCommentsKey := by
  unfold Dashboard.persistIgnoredThreads
  split <;> rfl

theorem processPosts_flag (ct : Int) (sub : String) (now : Int)
    (posts : List Discovery.ListingPost) : ∀ ex,
    (Discovery.processPosts ct sub now posts ex).2.2
      = posts.any (fun p => decide (p.created_utc < ct)) := by
  induction posts with
  | nil => intro ex; rfl
  | cons p rest ih =>
    intro ex
    simp only [Discovery.processPosts, List.any_cons]
    by_cases h : p.created_utc < ct
    · simp [h]
    · rw [if_neg h]
      have hd : decide (p.created_utc < ct) = false := by simp [h]
      rw [hd]
      simp only [Bool.false_or]
      split
      · exact ih ex
      · split
        · exact ih ex
        · exact ih (ex ++ [Discovery.permalinkURL p])

theorem processPosts_ex_eq (ct : Int) (sub : String) (now : Int)
    (posts : List Discovery.ListingPost) : ∀ ex,
    (Discovery.processPosts ct sub now posts ex).2.1
      = ex ++ ((Discovery.processPosts ct sub now posts ex).1).map (fun r => r.url) := by
  induction posts with
  | nil => intro ex; simp [Discovery.processPosts]
  | cons p rest ih =>
    intro ex
    simp only [Discovery.processPosts]
    by_cases h : p.created_utc < ct
    · simp [h]
    · rw [if_neg h]
      split
      · exact ih ex
      · split
        · exact ih ex
        · simp only [List.map_cons]
          rw [ih (ex ++ [Discovery.permalinkURL p])]
          simp [Discovery.mkDiscoveredURL]

theorem processPosts_absorb (ct : Int) (sub : String) (now : Int)
    (posts : List Discovery.ListingPost) : ∀ (S Sp : List String),
    (∀ u ∈ S, u ∈ Sp) →
    (∀ r ∈ (Discovery.processPosts ct sub now posts S).1, r.url ∈ Sp) →
    (Discovery.processPosts ct sub now posts Sp).1 = []
      ∧ (Discovery.processPosts ct sub now posts Sp).2.1 = Sp := by
  induction posts with
  | nil => intro S Sp _ _; exact ⟨rfl, rfl⟩
  | cons p rest ih =>
    intro S Sp hsub happ
    simp only [Discovery.processPosts]
    by_cases h : p.created_utc < ct
    · simp [h]
    · rw [if_neg h]
      simp only [Discovery.processPosts, if_neg h] at happ
      rcases hS : S.contains (Discovery.permalinkURL p) with _ | _
      · rcases hkw : Discovery.matchesKeywords (Discovery.searchText p) with _ | _
        · -- no keyword match: both runs skip the item
          rw [hS] at happ
          simp only [hkw] at happ
          split
          · exact ih S Sp hsub (by simpa [hS, hkw] using happ)
          · exact ih S Sp hsub (by simpa [hS, hkw] using happ)
        · -- the first run appended this item, so its url is already in Sp
          rw [hS] at happ
          simp only [hkw] at happ
          have hurl : Discovery.permalinkURL p ∈ Sp := by
            have := happ (Discovery.mkDiscoveredURL sub now p) (by simp)
            simpa [Discovery.mkDiscoveredURL] using this
          have hSp : Sp.contains (Discovery.permalinkURL p) = true :=
            (contains_eq_true_iff_mem _ _).mpr hurl
          rw [hSp, if_pos rfl]
          refine ih (S ++ [Discovery.permalinkURL p]) Sp ?_ ?_
          · intro u hu
            rcases List.mem_append.mp hu with hu | hu
            · exact hsub u hu
            · simpa using (by simpa using hu) ▸ hurl
          · intro r hr
            exact happ r (by simp [hr])
      · -- the item was already in the first-run set, hence also in Sp
        have hurl : Discovery.permalinkURL p ∈ Sp :=
          hsub _ ((contains_eq_true_iff_mem _ _).mp hS)
        have hSp : Sp.contains (Discovery.permalinkURL p) = true :=
          (contains_eq_true_iff_mem _ _).mpr hurl
        rw [hSp, if_pos rfl]
        rw [hS] at happ
        exact ih S Sp hsub (by simpa using happ)

theorem processPages_absorb (ct : Int) (sub : String) (now : Int)
    (pages : List (List Discovery.ListingPost)) : ∀ (S Sp : List String),
    (∀ u ∈ S, u ∈ Sp) →
    (∀ r ∈ Discovery.processPages ct sub now pages S, r.url ∈ Sp) →
    Discovery.processPages ct sub now pages Sp = [] := by
  induction pages with
  | nil => intro S Sp _ _; rfl
  | cons page rest ih =>
    intro S Sp hsub happ
    simp only [Discovery.processPages] at happ ⊢
    by_cases hpe : page.isEmpty
    · simp [hpe]
    · rw [if_neg hpe] at happ ⊢
      have happ1 : ∀ r ∈ (Discovery.processPosts ct sub now page S).1, r.url ∈ Sp := by
        intro r hr
        apply happ
        split
        · exact hr
        · exact List.mem_append_left _ hr
      have habs := processPosts_absorb ct sub now page S Sp hsub happ1
      have hflag : (Discovery.processPosts ct sub now page Sp).2.2
          = (Discovery.processPosts ct sub now page S).2.2 := by
        rw [processPosts_flag, processPosts_flag]
      rcases hf : (Discovery.processPosts ct sub now page S).2.2 with _ | _
      · rw [hflag, hf]
        simp only [Bool.false_eq_true, if_false]
        rw [habs.1, habs.2]
        simp only [List.nil_append]
        apply ih (Discovery.processPosts ct sub now page S).2.1 Sp
        · intro u hu
          rw [processPosts_ex_eq] at hu
          rcases List.mem_append.mp hu with hu | hu
          · exact hsub u hu
          · obtain ⟨r, hr, hre⟩ := List.mem_map.mp hu
            exact hre ▸ happ1 r hr
        · intro r hr
          apply happ
          rw [hf]
          simp only [Bool.false_eq_true, if_false]
          exact List.mem_append_right _ hr
      · rw [hflag, hf]
        simp only [if_true]
        exact habs.1

theorem runDiscovery_mono (ct now : Int) :
    ∀ (sources : List (String × List (List Discovery.ListingPost)))
      (store : List (RawLine Discovery.DiscoveredURL)) (u : String),
    u ∈ Discovery.loadDiscoveredURLs store →
    u ∈ Discovery.loadDiscoveredURLs (Discovery.runDiscovery ct now sources store) := by
  intro sources
  induction sources with
  | nil => intro store u hu; exact hu
  | cons sp rest ih =>
    intro store u hu
    obtain ⟨sub, pages⟩ := sp
    simp only [Discovery.runDiscovery]
    apply ih
    rw [loadDiscoveredURLs_append]
    exact List.mem_append_left _ hu

theorem runDiscovery_absorb (ct now : Int) :
    ∀ (sources : List (String × List (List Discovery.ListingPost)))
      (store store2 : List (RawLine Discovery.DiscoveredURL)),
    (∀ u ∈ Discovery.loadDiscoveredURLs (Discovery.runDiscovery ct now sources store),
      u ∈ Discovery.loadDiscoveredURLs store2) →
    Discovery.runDiscovery ct now sources store2 = store2 := by
  intro sources
  induction sources with
  | nil => intro store store2 _; rfl
  | cons sp rest ih =>
    intro store store2 h
    obtain ⟨sub, pages⟩ := sp
    simp only [Discovery.runDiscovery] at h ⊢
    have hA : Discovery.discoverFromSubreddit ct now sub pages store2 = [] := by
      unfold Discovery.discoverFromSubreddit
      apply processPages_absorb ct sub now pages (Discovery.loadDiscoveredURLs store)
      · intro u hu
        apply h
        apply runDiscovery_mono
        rw [loadDiscoveredURLs_append]
        exact List.mem_append_left _ hu
      · intro r hr
        apply h
        apply runDiscovery_mono
        rw [loadDiscoveredURLs_append]
        apply List.mem_append_right
        rw [loadDiscoveredURLs_map_record]
        exact List.mem_map.mpr ⟨r, hr, rfl⟩
    rw [hA]
    simp only [List.map_nil, List.append_nil]
    exact ih (store ++ (Discovery.discoverFromSubreddit ct now sub pages store).map
      RawLine.record) store2 h

/-! Claim theorems. -/

/-- C7: running Discovery a second time against identical source listings
with no time elapsed (same cutoff, same clock) appends zero additional
DiscoveredReferences: the store is unchanged, every item being
deduplicated by its permalink against the already-discovered set. -/
theorem C7_discovery_idempotent (ct now : Int)
    (sources : List (String × List (List Discovery.ListingPost)))
    (store : List (RawLine Discovery.DiscoveredURL)) :
    Discovery.runDiscovery ct now sources (Discovery.runDiscovery ct now sources store)
      = Discovery.runDiscovery ct now sources store :=
  runDiscovery_absorb ct now sources store _ (fun _ hu => hu)

/-- C6: for every filter state and every loaded result set the four group
counts partition the filtered set: preferClaudeCode + preferCodex +
neutral + unclear equals the total filtered count. -/
theorem C6_group_counts_partition (fs : Dashboard.FilterState)
    (data : List SentimentResult) :
    Dashboard.preferClaudeCode fs data + Dashboard.preferCodex fs data
      + Dashboard.neutral fs data + Dashboard.unclear fs data
      = Dashboard.total fs data := by
  have h := comparison_filter_partition (Dashboard.themeFilteredData fs data)
  simp only [Dashboard.preferClaudeCode, Dashboard.preferCodex, Dashboard.neutral,
    Dashboard.unclear, Dashboard.claudeCodeBetter, Dashboard.codexBetter,
    Dashboard.equal, Dashboard.claudeCodeOnlyPositive, Dashboard.claudeCodeOnlyNegative,
    Dashboard.codexOnlyPositive, Dashboard.codexOnlyNegative, Dashboard.neither,
    Dashboard.offTopic, Dashboard.comparisonCount, Dashboard.total]
  omega

/-- C1 counterexample: on a result set whose only entry is rated equal,
the weighted clear-preference denominator is 0 yet the upvote-weighted
percentage is not 0; it is the non-finite JavaScript division result. -/
theorem C1_counterexample :
    Dashboard.claudeCodeUpvotes exFilterAll [exResultEqual]
        + Dashboard.codexUpvotes exFilterAll [exResultEqual] = 0
      ∧ Dashboard.claudeCodeWeightedPctLabeled exFilterAll [exResultEqual] = none
      ∧ Dashboard.claudeCodeWeightedPctLabeled exFilterAll [exResultEqual] ≠ some 0 := by
  have hcc : Dashboard.claudeCodeUpvotes exFilterAll [exResultEqual] = 0 := by decide
  have hcx : Dashboard.codexUpvotes exFilterAll [exResultEqual] = 0 := by decide
  refine ⟨by rw [hcc, hcx]; rfl, ?_, ?_⟩
  · simp [Dashboard.claudeCodeWeightedPctLabeled, Dashboard.jsDiv, hcc, hcx]
  · simp [Dashboard.claudeCodeWeightedPctLabeled, Dashboard.jsDiv, hcc, hcx]

/-- C1 amended: the unweighted clear-preference percentages are defined as
0 whenever their count denominator is 0, for every filter state; the
upvote-weighted clear-preference percentages carry no zero-denominator
guard, so a zero upvote denominator yields the non-finite division result
(NaN), not 0. -/
theorem C1_clear_preference_zero_denominator (fs : Dashboard.FilterState)
    (data : List SentimentResult) :
    (Dashboard.totalLabeled fs data = 0 →
      Dashboard.claudeCodePctLabeled fs data = 0 ∧ Dashboard.codexPctLabeled fs data = 0)
    ∧ (Dashboard.claudeCodeUpvotes fs data + Dashboard.codexUpvotes fs data = 0 →
      Dashboard.claudeCodeWeightedPctLabeled fs data = none
        ∧ Dashboard.codexWeightedPctLabeled fs data = none) := by
  constructor
  · intro h
    constructor <;> simp [Dashboard.claudeCodePctLabeled, Dashboard.codexPctLabeled, h]
  · intro h
    have hc : ((Dashboard.claudeCodeUpvotes fs data : ℚ)
        + (Dashboard.codexUpvotes fs data : ℚ)) = 0 := by
      exact_mod_cast h
    constructor <;>
      simp [Dashboard.claudeCodeWeightedPctLabeled, Dashboard.codexWeightedPctLabeled,
        Dashboard.jsDiv, hc]

/-- C1 witness: the amended theorem applied to the concrete one-element
result set rated equal. -/
theorem C1_clear_preference_zero_denominator_witness :
    Dashboard.totalLabeled exFilterAll [exResultEqual] = 0
    ∧ Dashboard.claudeCodePctLabeled exFilterAll [exResultEqual] = 0
    ∧ Dashboard.claudeCodeUpvotes exFilterAll [exResultEqual]
        + Dashboard.codexUpvotes exFilterAll [exResultEqual] = 0
    ∧ Dashboard.codexWeightedPctLabeled exFilterAll [exResultEqual] = none :=
  ⟨by decide,
    ((C1_clear_preference_zero_denominator exFilterAll [exResultEqual]).1 (by decide)).1,
    by decide,
    ((C1_clear_preference_zero_denominator exFilterAll [exResultEqual]).2 (by decide)).2⟩

/-- C2 counterexample: the Classification stage load of its input thread
file aborts on a single malformed line instead of skipping it, while the
same file without the line loads fine. -/
theorem C2_counterexample :
    Analyze.loadPosts [RawLine.malformed] = none
      ∧ Analyze.loadPosts ([] : List (RawLine RedditPost)) = some [] := by
  exact ⟨rfl, rfl⟩

/-- C2 amended: the three dedup-set scans (discovered references in
Discovery, scraped thread ids in Scraping, classification results in
Classification) skip blank and malformed lines, so a corrupt line never
changes or aborts them; but the Classification stage load of its input
thread file (and likewise the Scraping stage load of the discovered
references it consumes) parses every non-blank line and aborts on the
first malformed one. -/
theorem C2_scan_skips_malformed (preA postA : List (RawLine SentimentResult))
    (preD postD : List (RawLine Discovery.DiscoveredURL))
    (preS postS preP postP : List (RawLine RedditPost)) :
    Analyze.loadAnalyzedComments (preA ++ RawLine.blank :: RawLine.malformed :: postA)
        = Analyze.loadAnalyzedComments (preA ++ postA)
    ∧ Discovery.loadDiscoveredURLs (preD ++ RawLine.blank :: RawLine.malformed :: postD)
        = Discovery.loadDiscoveredURLs (preD ++ postD)
    ∧ Scrape.loadScrapedPostIds (preS ++ RawLine.blank :: RawLine.malformed :: postS)
        = Scrape.loadScrapedPostIds (preS ++ postS)
    ∧ Analyze.loadPosts (preP ++ RawLine.malformed :: postP) = none := by
  refine ⟨?_, ?_, ?_, ?_⟩
  · induction preA with
    | nil => rfl
    | cons x rest ih => cases x <;> simpa [Analyze.loadAnalyzedComments] using ih
  · induction preD with
    | nil => rfl
    | cons x rest ih => cases x <;> simpa [Discovery.loadDiscoveredURLs] using ih
  · induction preS with
    | nil => rfl
    | cons x rest ih => cases x <;> simpa [Scrape.loadScrapedPostIds] using ih
  · exact parseAllLines_with_malformed preP postP

/-- C8 counterexample: starting from a state whose single ignored comment
is also the stored value, un-ignoring it empties the set but the guarded
persistence effect leaves the stored key untouched, so the next-session
readback still holds the old id. -/
theorem C8_counterexample :
    (Dashboard.toggleIgnored "a" exDashA).ignoredComments = []
      ∧ Dashboard.loadIgnoredComments (Dashboard.toggleIgnored "a" exDashA).storage
        = ["a"] := by
  exact ⟨by decide, by decide⟩

theorem persistIgnoredComments_spec (s : Dashboard.DashState) :
    (s.ignoredComments ≠ [] →
      (Dashboard.persistIgnoredComments s).storage.ignoredCommentsKey
        = some s.ignoredComments)
    ∧ (s.ignoredComments = [] → Dashboard.persistIgnoredComments s = s) := by
  constructor
  · intro h
    unfold Dashboard.persistIgnoredComments
    rw [if_pos (List.length_pos.mpr h)]
  · intro h
    unfold Dashboard.persistIgnoredComments
    rw [if_neg (by simp [h])]

theorem persistIgnoredThreads_spec (s : Dashboard.DashState) :
    (s.ignoredThreads ≠ [] →
      (Dashboard.persistIgnoredThreads s).storage.ignoredThreadsKey
        = some s.ignoredThreads)
    ∧ (s.ignoredThreads = [] → Dashboard.persistIgnoredThreads s = s) := by
  constructor
  · intro h
    unfold Dashboard.persistIgnoredThreads
    rw [if_pos (List.length_pos.mpr h)]
  · intro h
    unfold Dashboard.persistIgnoredThreads
    rw [if_neg (by simp [h])]

/-- C8 amended: a toggle of an ignore flag persists the updated set to its
own client-local storage key (replies and threads have separate keys and a
toggle never touches the other key) whenever the resulting set is
non-empty; a toggle that empties the set performs no write, so storage
keeps the previous value. -/
theorem C8_toggle_persistence (st : Dashboard.DashState) (commentId postId : String) :
    ((Dashboard.toggleIgnored commentId st).ignoredComments ≠ [] →
      (Dashboard.toggleIgnored commentId st).storage.ignoredCommentsKey
        = some (Dashboard.toggleIgnored commentId st).ignoredComments)
    ∧ ((Dashboard.toggleIgnored commentId st).ignoredComments = [] →
      (Dashboard.toggleIgnored commentId st).storage = st.storage)
    ∧ (Dashboard.toggleIgnored commentId st).storage.ignoredThreadsKey
        = st.storage.ignoredThreadsKey
    ∧ ((Dashboard.toggleThreadIgnored postId st).ignoredThreads ≠ [] →
      (Dashboard.toggleThreadIgnored postId st).storage.ignoredThreadsKey
        = some (Dashboard.toggleThreadIgnored postId st).ignoredThreads)
    ∧ ((Dashboard.toggleThreadIgnored postId st).ignoredThreads = [] →
      (Dashboard.toggleThreadIgnored postId st).storage = st.storage)
    ∧ (Dashboard.toggleThreadIgnored postId st).storage.ignoredCommentsKey
        = st.storage.ignoredCommentsKey := by
  have hcfield : (Dashboard.toggleIgnored commentId st).ignoredComments
      = Dashboard.jsSetToggle commentId st.ignoredComments :=
    persistIgnoredComments_ignoredComments _
  have htfield : (Dashboard.toggleThreadIgnored postId st).ignoredThreads
      = Dashboard.jsSetToggle postId st.ignoredThreads :=
    persistIgnoredThreads_ignoredThreads _
  refine ⟨?_, ?_, ?_, ?_, ?_, ?_⟩
  · intro h
    rw [hcfield] at h ⊢
    exact (persistIgnoredComments_spec _).1 h
  · intro h
    rw [hcfield] at h
    have := (persistIgnoredComments_spec
      { st with ignoredComments := Dashboard.jsSetToggle commentId st.ignoredComments }).2 h
    unfold Dashboard.toggleIgnored
    rw [this]
  · exact persistIgnoredComments_threadsKey _
  · intro h
    rw [htfield] at h ⊢
    exact (persistIgnoredThreads_spec _).1 h
  · intro h
    rw [htfield] at h
    have := (persistIgnoredThreads_spec
      { st with ignoredThreads := Dashboard.jsSetToggle postId st.ignoredThreads }).2 h
    unfold Dashboard.toggleThreadIgnored
    rw [this]
  · exact persistIgnoredThreads_commentsKey _

/-- C8 witness: the amended theorem applied to the concrete stored state,
once for a toggle that grows the set and once for the emptying toggle. -/
theorem C8_toggle_persistence_witness :
    (Dashboard.toggleIgnored "b" exDashA).ignoredComments ≠ []
    ∧ (Dashboard.toggleIgnored "b" exDashA).storage.ignoredCommentsKey
        = some (Dashboard.toggleIgnored "b" exDashA).ignoredComments
    ∧ (Dashboard.toggleIgnored "a" exDashA).ignoredComments = []
    ∧ (Dashboard.toggleIgnored "a" exDashA).storage = exDashA.storage :=
  ⟨by decide, (C8_toggle_persistence exDashA "b" "x").1 (by decide), by decide,
    (C8_toggle_persistence exDashA "a" "x").2.1 (by decide)⟩

/-- C9: with the include-ignored toggle off and a thread id not yet
ignored, ignoring the thread removes exactly the results with that
threadId from the active set, leaves the loaded result set unchanged, and
toggling the same id again restores the active set exactly. -/
theorem C9_thread_ignore_frame (st : Dashboard.DashState) (t : String)
    (hshow : st.showIgnored = false) (ht : st.ignoredThreads.contains t = false) :
    (Dashboard.toggleThreadIgnored t st).data = st.data
    ∧ Dashboard.activeDataOf (Dashboard.toggleThreadIgnored t st)
        = (Dashboard.activeDataOf st).filter (fun d => !(d.postId == t))
    ∧ (Dashboard.toggleThreadIgnored t (Dashboard.toggleThreadIgnored t st)).data = st.data
    ∧ Dashboard.activeDataOf (Dashboard.toggleThreadIgnored t (Dashboard.toggleThreadIgnored t st))
        = Dashboard.activeDataOf st := by
  have hadd : Dashboard.jsSetToggle t st.ignoredThreads = st.ignoredThreads ++ [t] := by
    unfold Dashboard.jsSetToggle
    rw [if_neg (fun hc => by rw [ht] at hc; exact Bool.noConfusion hc)]
  have hnotmem : t ∉ st.ignoredThreads := not_mem_of_contains_eq_false ht
  have hdel : Dashboard.jsSetToggle t (st.ignoredThreads ++ [t]) = st.ignoredThreads := by
    unfold Dashboard.jsSetToggle
    rw [if_pos (by rw [contains_append, List.contains_cons]; simp)]
    rw [List.erase_append_right _ hnotmem, List.erase_cons_head, List.append_nil]
  have ha1 : (Dashboard.toggleThreadIgnored t st).ignoredThreads
      = Dashboard.jsSetToggle t st.ignoredThreads :=
    persistIgnoredThreads_ignoredThreads _
  have hfields1 : (Dashboard.toggleThreadIgnored t st).ignoredThreads
      = st.ignoredThreads ++ [t] := ha1.trans hadd
  have hdata1 : (Dashboard.toggleThreadIgnored t st).data = st.data :=
    persistIgnoredThreads_data _
  have hic1 : (Dashboard.toggleThreadIgnored t st).ignoredComments = st.ignoredComments :=
    persistIgnoredThreads_ignoredComments _
  have hshow1 : (Dashboard.toggleThreadIgnored t st).showIgnored = st.showIgnored :=
    persistIgnoredThreads_showIgnored _
  have ha2 : (Dashboard.toggleThreadIgnored t (Dashboard.toggleThreadIgnored t st)).ignoredThreads
      = Dashboard.jsSetToggle t (Dashboard.toggleThreadIgnored t st).ignoredThreads :=
    persistIgnoredThreads_ignoredThreads _
  have hfields2 : (Dashboard.toggleThreadIgnored t (Dashboard.toggleThreadIgnored t st)).ignoredThreads
      = st.ignoredThreads := by rw [ha2, hfields1, hdel]
  have hdata2 : (Dashboard.toggleThreadIgnored t (Dashboard.toggleThreadIgnored t st)).data
      = st.data :=
    (persistIgnoredThreads_data _ :
      (Dashboard.toggleThreadIgnored t (Dashboard.toggleThreadIgnored t st)).data
        = (Dashboard.toggleThreadIgnored t st).data).trans hdata1
  have hic2 : (Dashboard.toggleThreadIgnored t (Dashboard.toggleThreadIgnored t st)).ignoredComments
      = st.ignoredComments :=
    (persistIgnoredThreads_ignoredComments _ :
      (Dashboard.toggleThreadIgnored t (Dashboard.toggleThreadIgnored t st)).ignoredComments
        = (Dashboard.toggleThreadIgnored t st).ignoredComments).trans hic1
  have hshow2 : (Dashboard.toggleThreadIgnored t (Dashboard.toggleThreadIgnored t st)).showIgnored
      = st.showIgnored :=
    (persistIgnoredThreads_showIgnored _ :
      (Dashboard.toggleThreadIgnored t (Dashboard.toggleThreadIgnored t st)).showIgnored
        = (Dashboard.toggleThreadIgnored t st).showIgnored).trans hshow1
  refine ⟨hdata1, ?_, hdata2, ?_⟩
  · unfold Dashboard.activeDataOf
    rw [hdata1, hic1, hfields1, hshow1, hshow]
    unfold Dashboard.activeData
    simp only [Bool.false_eq_true, if_false]
    rw [List.filter_filter]
    apply List.filter_congr
    intro d _
    rw [contains_append]
    by_cases hC : d.postId = t
    · simp [List.contains_cons, hC]
    · simp [List.contains_cons, beq_eq_false_iff_ne, hC]
  · unfold Dashboard.activeDataOf
    rw [hdata2, hic2, hfields2, hshow2]

/-- C9 witness: the frame theorem applied to a concrete two-thread state,
ignoring thread pA. -/
theorem C9_thread_ignore_frame_witness :
    exDash9.showIgnored = false
    ∧ exDash9.ignoredThreads.contains "pA" = false
    ∧ (Dashboard.toggleThreadIgnored "pA" exDash9).data = exDash9.data
    ∧ Dashboard.activeDataOf (Dashboard.toggleThreadIgnored "pA" exDash9)
        = (Dashboard.activeDataOf exDash9).filter (fun d => !(d.postId == "pA"))
    ∧ Dashboard.activeDataOf
          (Dashboard.toggleThreadIgnored "pA" (Dashboard.toggleThreadIgnored "pA" exDash9))
        = Dashboard.activeDataOf exDash9 :=
  ⟨by decide, by decide,
    (C9_thread_ignore_frame exDash9 "pA" (by decide) (by decide)).1,
    (C9_thread_ignore_frame exDash9 "pA" (by decide) (by decide)).2.1,
    (C9_thread_ignore_frame exDash9 "pA" (by decide) (by decide)).2.2.2⟩

/-- C4 counterexample: a reply whose context blob lacks the required term
claude code (it only writes claude-code with a hyphen) is nevertheless
selected as a classification candidate, because the eligibility predicate
also accepts the hyphenated spelling. -/
theorem C4_counterexample :
    includesSub
        (lowerStr (Analyze.getThreadContext cexHyphenComment cexHyphenPost.comments
          cexHyphenPost).fullText) "claude code" = false
    ∧ (cexHyphenComment, cexHyphenPost)
        ∈ (Analyze.candidateList [cexHyphenPost] []).take 500 := by
  exact ⟨by decide, by decide⟩

/-- C4 amended: if a reply fails the eligibility predicate of the code
(the context blob, lower-cased, lacks codex, or lacks both claude code and
claude-code), then for every batch size the Classification stage never
selects that reply as a candidate. -/
theorem C4_ineligible_never_selected (posts : List RedditPost) (analyzedIds : List String)
    (batchSize : Nat) (c : RedditComment) (p : RedditPost)
    (h : Analyze.mentionsBothTools
      (Analyze.getThreadContext c p.comments p).fullText = false) :
    (c, p) ∉ (Analyze.candidateList posts analyzedIds).take batchSize := by
  intro hmem
  have hmem2 := List.mem_of_mem_take hmem
  unfold Analyze.candidateList at hmem2
  obtain ⟨post, _, hmm⟩ := List.mem_flatMap.mp hmem2
  obtain ⟨comment, hcf, heq⟩ := List.mem_map.mp hmm
  have h1 : comment = c := congrArg Prod.fst heq
  have h2 : post = p := congrArg Prod.snd heq
  subst h1
  subst h2
  have hpred := (List.mem_filter.mp hcf).2
  rw [Bool.and_eq_true] at hpred
  rw [h] at hpred
  exact Bool.noConfusion hpred.2

/-- C4 witness: the amended theorem applied to a reply that never mentions
codex; it is excluded from every batch. -/
theorem C4_ineligible_never_selected_witness :
    Analyze.mentionsBothTools
        (Analyze.getThreadContext cexNoCodexComment cexNoCodexPost.comments
          cexNoCodexPost).fullText = false
    ∧ (cexNoCodexComment, cexNoCodexPost)
        ∉ (Analyze.candidateList [cexNoCodexPost] []).take 500 :=
  ⟨by decide,
    C4_ineligible_never_selected [cexNoCodexPost] [] 500 cexNoCodexComment cexNoCodexPost
      (by decide)⟩

theorem flatMap_sublist {α β : Type} (f g : α → List β) (l : List α)
    (h : ∀ a ∈ l, (f a).Sublist (g a)) : (l.flatMap f).Sublist (l.flatMap g) := by
  induction l with
  | nil => simp
  | cons a rest ih =>
    simp only [List.flatMap_cons]
    exact (h a (by simp)).append (ih fun x hx => h x (by simp [hx]))

theorem load_filterMap_sublist (oracle : RedditComment → RedditPost → Option Analyze.AnalysisOut)
    (mdl : String) (now : Int) (batch : List (RedditComment × RedditPost)) :
    (Analyze.loadAnalyzedComments (batch.filterMap (fun cp =>
      (oracle cp.1 cp.2).map (fun analysis =>
        RawLine.record (Analyze.mkSentimentResult mdl now cp.1 cp.2 analysis))))).Sublist
      (batch.map (fun cp => cp.1.id)) := by
  induction batch with
  | nil => exact List.nil_sublist _
  | cons cp rest ih =>
    simp only [List.filterMap_cons, List.map_cons]
    cases h : oracle cp.1 cp.2 with
    | none => exact ih.cons _
    | some a => exact List.Sublist.cons₂ _ ih

theorem candidateList_ids_sublist (posts : List RedditPost) (ids : List String) :
    ((Analyze.candidateList posts ids).map (fun cp => cp.1.id)).Sublist
      (posts.flatMap (fun p => p.comments.map (fun c => c.id))) := by
  unfold Analyze.candidateList
  rw [List.map_flatMap]
  apply flatMap_sublist
  intro p _
  rw [List.map_map]
  exact List.Sublist.map _ (List.filter_sublist _)

theorem candidateList_not_analyzed (posts : List RedditPost) (ids : List String) :
    ∀ cp ∈ Analyze.candidateList posts ids, ids.contains cp.1.id = false := by
  intro cp hcp
  unfold Analyze.candidateList at hcp
  obtain ⟨post, _, hmm⟩ := List.mem_flatMap.mp hcp
  obtain ⟨comment, hcf, heq⟩ := List.mem_map.mp hmm
  have hpred := (List.mem_filter.mp hcf).2
  rw [Bool.and_eq_true] at hpred
  have hnot := hpred.1
  rw [← heq]
  simpa using hnot

theorem runAnalyze_nodup (oracle : RedditComment → RedditPost → Option Analyze.AnalysisOut)
    (mdl : String) (now : Int) (batchSize : Nat) (posts : List RedditPost)
    (store : List (RawLine SentimentResult))
    (hpost : (posts.flatMap (fun p => p.comments.map (fun c => c.id))).Nodup)
    (hstore : (Analyze.loadAnalyzedComments store).Nodup) :
    (Analyze.loadAnalyzedComments
      (Analyze.runAnalyze oracle mdl now batchSize posts store)).Nodup := by
  unfold Analyze.runAnalyze
  rw [loadAnalyzedComments_append]
  have hsub1 := load_filterMap_sublist oracle mdl now
    ((Analyze.candidateList posts (Analyze.loadAnalyzedComments store)).take batchSize)
  have hsub2 : (((Analyze.candidateList posts
        (Analyze.loadAnalyzedComments store)).take batchSize).map (fun cp => cp.1.id)).Sublist
      ((Analyze.candidateList posts (Analyze.loadAnalyzedComments store)).map
        (fun cp => cp.1.id)) :=
    List.Sublist.map _ (List.take_sublist _ _)
  have hchain := (hsub1.trans hsub2).trans
    (candidateList_ids_sublist posts (Analyze.loadAnalyzedComments store))
  refine List.Nodup.append hstore (List.Nodup.sublist hchain hpost) ?_
  intro a ha hb
  have hb2 := (hsub1.trans hsub2).subset hb
  obtain ⟨cp, hcp, hcpe⟩ := List.mem_map.mp hb2
  have hfalse := candidateList_not_analyzed posts (Analyze.loadAnalyzedComments store) cp hcp
  rw [hcpe] at hfalse
  exact not_mem_of_contains_eq_false hfalse ha

theorem runHistory_nodup (oracle : RedditComment → RedditPost → Option Analyze.AnalysisOut)
    (mdl : String) (now : Int) : ∀ (runs : List (List RedditPost × Nat))
      (store : List (RawLine SentimentResult)),
    (∀ run ∈ runs, ((run.1.flatMap (fun p => p.comments.map (fun c => c.id))).Nodup)) →
    (Analyze.loadAnalyzedComments store).Nodup →
    (Analyze.loadAnalyzedComments (Analyze.runHistory oracle mdl now runs store)).Nodup := by
  intro runs
  induction runs with
  | nil => intro store _ hstore; exact hstore
  | cons run rest ih =>
    intro store h hstore
    obtain ⟨posts, batchSize⟩ := run
    simp only [Analyze.runHistory]
    exact ih _ (fun r hr => h r (by simp [hr]))
      (runAnalyze_nodup oracle mdl now batchSize posts store (h (posts, batchSize) (by simp))
        hstore)

/-- C3 counterexample: an input where the same reply id dup occurs under
two different threadIds makes one run append two ClassificationResults
with the same replyId, because dedup keys on the bare comment id. -/
theorem C3_counterexample :
    Analyze.loadAnalyzedComments
        (Analyze.runHistory exOracle "m" 0 [([exPostDupA, exPostDupB], 500)] [])
        = ["dup", "dup"]
    ∧ ¬ (Analyze.loadAnalyzedComments
        (Analyze.runHistory exOracle "m" 0 [([exPostDupA, exPostDupB], 500)] [])).Nodup := by
  exact ⟨by decide, by decide⟩

/-- C3 amended: over any sequential run history starting from an empty
result store, if within each run the reply ids are globally unique across
the whole input (no id occurs twice, in particular not under two different
threadIds), then no two appended ClassificationResults share a replyId. -/
theorem C3_replyId_unique (oracle : RedditComment → RedditPost → Option Analyze.AnalysisOut)
    (mdl : String) (now : Int) (runs : List (List RedditPost × Nat))
    (h : ∀ run ∈ runs, ((run.1.flatMap (fun p => p.comments.map (fun c => c.id))).Nodup)) :
    (Analyze.loadAnalyzedComments (Analyze.runHistory oracle mdl now runs [])).Nodup :=
  runHistory_nodup oracle mdl now runs [] h (by simp [Analyze.loadAnalyzedComments])

/-- C3 witness: the uniqueness theorem applied to two concrete runs over a
post whose comment ids are globally unique. -/
theorem C3_replyId_unique_witness :
    (∀ run ∈ [([exPostUnique], 500), ([exPostUnique], 500)],
      ((run.1.flatMap (fun p => p.comments.map (fun c => c.id))).Nodup))
    ∧ (Analyze.loadAnalyzedComments
        (Analyze.runHistory exOracle "m" 0 [([exPostUnique], 500), ([exPostUnique], 500)]
          [])).Nodup :=
  ⟨by decide,
    C3_replyId_unique exOracle "m" 0 [([exPostUnique], 500), ([exPostUnique], 500)]
      (by decide)⟩

mutual
theorem extractOne_inv (postId : String) (d : Nat) (e : Option String)
    (rc : Scrape.RawComment) (hwf : Scrape.rawWF e rc = true) :
    ∀ c ∈ Scrape.extractOne postId d rc,
      (c.depth = d ∧ c.parentId = e)
      ∨ (d < c.depth ∧ ∃ p ∈ Scrape.extractOne postId d rc,
          c.parentId = some p.id ∧ p.depth + 1 = c.depth) := by
  match rc with
  | Scrape.RawComment.mk id body parent_id score author created replies =>
    rw [Scrape.rawWF, Bool.and_eq_true] at hwf
    obtain ⟨hpe, hrep⟩ := hwf
    rw [beq_iff_eq] at hpe
    intro c hc
    by_cases hdel : (body = "" || body = "[deleted]" || body = "[removed]" : Bool)
    · rw [Scrape.extractOne, if_pos hdel] at hc
      exact absurd hc (List.not_mem_nil c)
    · have heq : Scrape.extractOne postId d
          (Scrape.RawComment.mk id body parent_id score author created replies)
          = { id := id, parentId := Scrape.parseParentId parent_id, postId := postId,
              depth := d, text := body, score := score, author := author,
              created := created }
            :: Scrape.extractList postId (d + 1) replies := by
        rw [Scrape.extractOne, if_neg hdel]
      rw [heq] at hc ⊢
      rcases List.mem_cons.mp hc with hc1 | hc2
      · subst hc1
        exact Or.inl ⟨rfl, hpe⟩
      · rcases extractList_inv postId (d + 1) (some id) replies hrep c hc2 with
          ⟨hd1, hp1⟩ | ⟨hlt, p, hp, hpe1, hpd⟩
        · refine Or.inr ⟨by omega, ?_⟩
          refine ⟨_, List.mem_cons_self _ _, ?_, ?_⟩
          · exact hp1
          · simp [hd1]
        · exact Or.inr ⟨by omega, p, List.mem_cons_of_mem _ hp, hpe1, hpd⟩

theorem extractList_inv (postId : String) (d : Nat) (e : Option String)
    (l : Scrape.RawCommentList) (hwf : Scrape.rawListWF e l = true) :
    ∀ c ∈ Scrape.extractList postId d l,
      (c.depth = d ∧ c.parentId = e)
      ∨ (d < c.depth ∧ ∃ p ∈ Scrape.extractList postId d l,
          c.parentId = some p.id ∧ p.depth + 1 = c.depth) := by
  match l with
  | Scrape.RawCommentList.nil =>
    intro c hc
    exact absurd hc (List.not_mem_nil c)
  | Scrape.RawCommentList.cons c0 rest =>
    rw [Scrape.rawListWF, Bool.and_eq_true] at hwf
    obtain ⟨h0, hrest⟩ := hwf
    intro c hc
    rw [Scrape.extractList] at hc ⊢
    rcases List.mem_append.mp hc with hc1 | hc2
    · rcases extractOne_inv postId d e c0 h0 c hc1 with h | ⟨hlt, p, hp, hpe1, hpd⟩
      · exact Or.inl h
      · exact Or.inr ⟨hlt, p, List.mem_append_left _ hp, hpe1, hpd⟩
    · rcases extractList_inv postId d e rest hrest c hc2 with h | ⟨hlt, p, hp, hpe1, hpd⟩
      · exact Or.inl h
      · exact Or.inr ⟨hlt, p, List.mem_append_right _ hp, hpe1, hpd⟩
end

theorem parentStep_of_parentId_none (out : List RedditComment) (c : RedditComment)
    (h : c.parentId = none) : Analyze.parentStep out c = none := by
  rw [Analyze.parentStep, h]

theorem parentStep_of_parentId_some (out : List RedditComment) (c : RedditComment)
    (pid : String) (h : c.parentId = some pid) :
    Analyze.parentStep out c = out.find? (fun x => x.id == pid) := by
  rw [Analyze.parentStep, h]

theorem chainAux_succ_of_step_none (out : List RedditComment) (fuel : Nat)
    (c : RedditComment) (h : Analyze.parentStep out c = none) :
    Analyze.chainAux out (fuel + 1) c = [c] := by
  rw [Analyze.chainAux, h]

theorem chainAux_succ_of_step_some (out : List RedditComment) (fuel : Nat)
    (c parent : RedditComment) (h : Analyze.parentStep out c = some parent) :
    Analyze.chainAux out (fuel + 1) c = Analyze.chainAux out fuel parent ++ [c] := by
  rw [Analyze.chainAux, h]

theorem extractComments_inv (postId : String) (tree : Scrape.RawCommentList)
    (hwf : Scrape.rawListWF none tree = true) :
    ∀ c ∈ Scrape.extractComments postId tree,
      (c.depth = 0 ∧ c.parentId = none)
      ∨ (0 < c.depth ∧ ∃ p ∈ Scrape.extractComments postId tree,
          c.parentId = some p.id ∧ p.depth + 1 = c.depth) :=
  fun c hc => extractList_inv postId 0 none tree hwf c hc

theorem find?_of_nodup_ids (out : List RedditComment)
    (hnodup : (out.map (fun c => c.id)).Nodup) (p : RedditComment) (hp : p ∈ out) :
    out.find? (fun c => c.id == p.id) = some p := by
  induction out with
  | nil => exact absurd hp (List.not_mem_nil p)
  | cons a rest ih =>
    rw [List.map_cons, List.nodup_cons] at hnodup
    obtain ⟨hna, hnr⟩ := hnodup
    rcases List.mem_cons.mp hp with h1 | h2
    · subst h1
      exact List.find?_cons_of_pos _ (by simp)
    · have hne : (a.id == p.id) = false := by
        rw [beq_eq_false_iff_ne]
        intro hcontra
        apply hna
        rw [hcontra]
        exact List.mem_map.mpr ⟨p, h2, rfl⟩
      rw [List.find?_cons_of_neg _ (by simp [hne])]
      exact ih hnr h2

theorem chainAux_subset (out : List RedditComment) :
    ∀ (fuel : Nat) (c : RedditComment), c ∈ out →
      ∀ x ∈ Analyze.chainAux out fuel c, x ∈ out := by
  intro fuel
  induction fuel with
  | zero => intro c _ x hx; exact absurd hx (List.not_mem_nil x)
  | succ f ih =>
    intro c hc x hx
    cases hps : Analyze.parentStep out c with
    | none =>
      rw [chainAux_succ_of_step_none out f c hps] at hx
      rw [List.mem_singleton] at hx
      exact hx ▸ hc
    | some parent =>
      rw [chainAux_succ_of_step_some out f c parent hps] at hx
      have hparent : parent ∈ out := by
        unfold Analyze.parentStep at hps
        cases hpid : c.parentId with
        | none => rw [hpid] at hps; exact absurd hps (by simp)
        | some pid =>
          rw [hpid] at hps
          exact List.mem_of_find?_eq_some hps
      rcases List.mem_append.mp hx with hx1 | hx2
      · exact ih parent hparent x hx1
      · rw [List.mem_singleton] at hx2
        exact hx2 ▸ hc

theorem chainAux_map_depth (out : List RedditComment)
    (hinv : ∀ c ∈ out, (c.depth = 0 ∧ c.parentId = none)
      ∨ (0 < c.depth ∧ ∃ p ∈ out, c.parentId = some p.id ∧ p.depth + 1 = c.depth))
    (hnodup : (out.map (fun c => c.id)).Nodup) :
    ∀ (fuel : Nat) (c : RedditComment), c ∈ out → c.depth < fuel →
      (Analyze.chainAux out fuel c).map (fun x => x.depth) = List.range (c.depth + 1) := by
  intro fuel
  induction fuel with
  | zero => intro c _ h; omega
  | succ f ih =>
    intro c hc hlt
    rcases hinv c hc with ⟨hd0, hpn⟩ | ⟨hpos, p, hp, hpid, hpd⟩
    · rw [chainAux_succ_of_step_none out f c (parentStep_of_parentId_none out c hpn)]
      rw [List.map_cons, List.map_nil, hd0]
      rfl
    · have hfind : out.find? (fun x => x.id == p.id) = some p :=
        find?_of_nodup_ids out hnodup p hp
      have hps : Analyze.parentStep out c = some p := by
        rw [parentStep_of_parentId_some out c p.id hpid]
        exact hfind
      rw [chainAux_succ_of_step_some out f c p hps]
      rw [List.map_append, ih p hp (by omega)]
      rw [List.map_cons, List.map_nil, ← hpd, ← List.range_succ]

theorem depth_lt_length (out : List RedditComment)
    (hinv : ∀ c ∈ out, (c.depth = 0 ∧ c.parentId = none)
      ∨ (0 < c.depth ∧ ∃ p ∈ out, c.parentId = some p.id ∧ p.depth + 1 = c.depth))
    (hnodup : (out.map (fun c => c.id)).Nodup) :
    ∀ c ∈ out, c.depth < out.length := by
  intro c hc
  have hmap := chainAux_map_depth out hinv hnodup (c.depth + 1) c hc (Nat.lt_succ_self _)
  have hlen : (Analyze.chainAux out (c.depth + 1) c).length = c.depth + 1 := by
    have h1 := congrArg List.length hmap
    rw [List.length_map, List.length_range] at h1
    exact h1
  have hnd : (Analyze.chainAux out (c.depth + 1) c).Nodup :=
    List.Nodup.of_map _ (hmap ▸ List.nodup_range _)
  have hsubset := chainAux_subset out (c.depth + 1) c hc
  have hcard : (Analyze.chainAux out (c.depth + 1) c).toFinset.card
      ≤ out.toFinset.card := by
    apply Finset.card_le_card
    intro x hx
    rw [List.mem_toFinset] at hx ⊢
    exact hsubset x hx
  have h1 : (Analyze.chainAux out (c.depth + 1) c).toFinset.card = c.depth + 1 := by
    rw [List.toFinset_card_of_nodup hnd, hlen]
  have h2 := List.toFinset_card_le out
  omega

/-- C5: for any reply in the flattened list the Scraping stage produces
from a well-formed raw tree with globally unique comment ids, the
thread-context chain built for a reply of depth d has exactly d + 1
entries in root-to-target order and the i-th entry (1-indexed) carries
depth i - 1; equivalently its depth fields are exactly 0, 1, ..., d. -/
theorem C5_context_chain_depths (postId : String) (tree : Scrape.RawCommentList)
    (post : RedditPost)
    (hwf : Scrape.rawListWF none tree = true)
    (hnodup : ((Scrape.extractComments postId tree).map (fun c => c.id)).Nodup)
    (c : RedditComment) (hc : c ∈ Scrape.extractComments postId tree)
    (_hd : 0 < c.depth) :
    ((Analyze.getThreadContext c (Scrape.extractComments postId tree) post).commentChain.map
      (fun x => x.depth)) = List.range (c.depth + 1) := by
  have hinv := extractComments_inv postId tree hwf
  have hlt := depth_lt_length (Scrape.extractComments postId tree) hinv hnodup c hc
  show (Analyze.chainAux (Scrape.extractComments postId tree)
      ((Scrape.extractComments postId tree).length + 1) c).map (fun x => x.depth)
    = List.range (c.depth + 1)
  exact chainAux_map_depth _ hinv hnodup _ c hc (by omega)

/-- C5 witness: the chain theorem applied to a concrete two-level tree and
its depth-one reply. -/
theorem C5_context_chain_depths_witness :
    Scrape.rawListWF none exRawTree = true
    ∧ ((Scrape.extractComments "p" exRawTree).map (fun c => c.id)).Nodup
    ∧ exDeepComment ∈ Scrape.extractComments "p" exRawTree
    ∧ 0 < exDeepComment.depth
    ∧ ((Analyze.getThreadContext exDeepComment (Scrape.extractComments "p" exRawTree)
        exTreePost).commentChain.map (fun x => x.depth))
      = List.range (exDeepComment.depth + 1) :=
  ⟨by decide, by decide, by decide, by decide,
    C5_context_chain_depths "p" exRawTree exTreePost (by decide) (by decide) exDeepComment
      (by decide) (by decide)⟩

theorem chainAux_stable (out : List RedditComment) :
    ∀ (n : Nat) (c : RedditComment), Analyze.parentIter out n c = none →
      ∀ fuel, n ≤ fuel → Analyze.chainAux out fuel c = Analyze.chainAux out n c := by
  intro n
  induction n with
  | zero =>
    intro c h
    rw [Analyze.parentIter] at h
    exact absurd h (by simp)
  | succ k ih =>
    intro c h fuel hle
    obtain ⟨f, rfl⟩ : ∃ f, fuel = f + 1 := ⟨fuel - 1, by omega⟩
    cases hps : Analyze.parentStep out c with
    | none =>
      rw [chainAux_succ_of_step_none out f c hps, chainAux_succ_of_step_none out k c hps]
    | some p =>
      rw [Analyze.parentIter, hps] at h
      rw [chainAux_succ_of_step_some out f c p hps, chainAux_succ_of_step_some out k c p hps]
      rw [ih p h f (by omega)]

theorem parentIter_none_of_inv (out : List RedditComment)
    (hinv : ∀ c ∈ out, (c.depth = 0 ∧ c.parentId = none)
      ∨ (0 < c.depth ∧ ∃ p ∈ out, c.parentId = some p.id ∧ p.depth + 1 = c.depth))
    (hnodup : (out.map (fun c => c.id)).Nodup) :
    ∀ (n : Nat) (c : RedditComment), c ∈ out → c.depth < n →
      Analyze.parentIter out n c = none := by
  intro n
  induction n with
  | zero => intro c _ h; omega
  | succ k ih =>
    intro c hc hlt
    rcases hinv c hc with ⟨hd0, hpn⟩ | ⟨hpos, p, hp, hpid, hpd⟩
    · rw [Analyze.parentIter, parentStep_of_parentId_none out c hpn]
    · have hps : Analyze.parentStep out c = some p := by
        rw [parentStep_of_parentId_some out c p.id hpid]
        exact find?_of_nodup_ids out hnodup p hp
      rw [Analyze.parentIter, hps]
      exact ih p hp (by omega)

/-- C10: the parent-chain walk of the thread-context builder terminates on
every reply list whose parentId links are acyclic, in the sense that once
the iterated parent step ends within n steps, every fuel bound of at least
n yields the same chain; and every flattened list the Scraping stage
produces from a well-formed raw tree with unique ids is acyclic in exactly
this sense, the walk from a reply of depth d ending within d + 1 steps. -/
theorem C10_chain_walk_terminates :
    (∀ (out : List RedditComment) (c : RedditComment) (n fuel : Nat),
      Analyze.parentIter out n c = none → n ≤ fuel →
      Analyze.chainAux out fuel c = Analyze.chainAux out n c)
    ∧ (∀ (postId : String) (tree : Scrape.RawCommentList),
      Scrape.rawListWF none tree = true →
      ((Scrape.extractComments postId tree).map (fun c => c.id)).Nodup →
      ∀ c ∈ Scrape.extractComments postId tree,
        Analyze.parentIter (Scrape.extractComments postId tree) (c.depth + 1) c = none) := by
  constructor
  · intro out c n fuel h hle
    exact chainAux_stable out n c h fuel hle
  · intro postId tree hwf hnodup c hc
    exact parentIter_none_of_inv (Scrape.extractComments postId tree)
      (extractComments_inv postId tree hwf) hnodup (c.depth + 1) c hc (Nat.lt_succ_self _)

/-- C10 witness: both parts of the termination theorem applied to concrete
inputs, a root comment over the empty list and the two-level tree. -/
theorem C10_chain_walk_terminates_witness :
    Analyze.parentIter [] 1 exRootComment = none
    ∧ Analyze.chainAux [] 3 exRootComment = Analyze.chainAux [] 1 exRootComment
    ∧ Scrape.rawListWF none exRawTree = true
    ∧ Analyze.parentIter (Scrape.extractComments "p" exRawTree)
        (exDeepComment.depth + 1) exDeepComment = none :=
  ⟨by decide, C10_chain_walk_terminates.1 [] exRootComment 1 3 (by decide) (by decide),
    by decide,
    C10_chain_walk_terminates.2 "p" exRawTree (by decide) (by decide) exDeepComment
      (by decide)⟩
